import Mathlib

set_option autoImplicit false

/-!
Verification development for the rhai native-function registration bridge:
the `BasicStringPackage` of `src/packages/string_basic.rs` and the
`TypeBuilder` / `Engine::build_type` API of `src/api/build_type.rs`.

The embedding models the default build configuration: every conditionally
compiled block (`not(only_i32)`, `not(only_i64)`, `not(no_float)`,
`not(no_index)`, `not(no_object)`) is enabled, and `INT` is `i64`.
-/

namespace Rhai

/-- Runtime type identities (Rust `TypeId`s) of the value types for which the
`BasicStringPackage` registers functions.  `INT` is `i64` in the default
build, so `tI64` stands for both. -/
inductive TypeTag where
  | tI64 | tBool | tChar | tUnit | tString
  | tI8 | tU8 | tI16 | tU16 | tI32 | tU32 | tU64 | tI128 | tU128
  | tF32 | tF64
  | tArray | tMap
  deriving DecidableEq

/-- Modelled from the spec: the Dynamic Value surface (a type-erased container
with runtime type identification, spec sections 3 and 6); its implementation
lives outside `src/`.  Each constructor holds one native payload that the
string package can receive.  Integer widths other than `i64` carry their
mathematical value as `Int`; no arithmetic is performed on them here, so
wrapping never arises. -/
inductive Dynamic where
  | vInt (i : Int)
  | vBool (b : Bool)
  | vChar (c : Char)
  | vUnit
  | vString (s : String)
  | vI8 (i : Int)
  | vU8 (i : Int)
  | vI16 (i : Int)
  | vU16 (i : Int)
  | vI32 (i : Int)
  | vU32 (i : Int)
  | vU64 (i : Int)
  | vI128 (i : Int)
  | vU128 (i : Int)
  | vF32 (x : Float)
  | vF64 (x : Float)
  | vArray (a : List Dynamic)
  | vMap (m : List (String × Dynamic))

/-- Runtime type identity of a Dynamic value (the `TypeId` reported by the
value, used by the dispatch step to select an adapter). -/
def Dynamic.tagOf : Dynamic → TypeTag
  | .vInt _ => .tI64
  | .vBool _ => .tBool
  | .vChar _ => .tChar
  | .vUnit => .tUnit
  | .vString _ => .tString
  | .vI8 _ => .tI8
  | .vU8 _ => .tU8
  | .vI16 _ => .tI16
  | .vU16 _ => .tU16
  | .vI32 _ => .tI32
  | .vU32 _ => .tU32
  | .vU64 _ => .tU64
  | .vI128 _ => .tI128
  | .vU128 _ => .tU128
  | .vF32 _ => .tF32
  | .vF64 _ => .tF64
  | .vArray _ => .tArray
  | .vMap _ => .tMap

/-- The double-quote character, written numerically. -/
def dquote : Char := Char.ofNat 34

/-- The single-quote character, written numerically. -/
def squote : Char := Char.ofNat 39

/-- The backslash character, written numerically. -/
def backslash : Char := Char.ofNat 92

/-- Modelled from the spec: the escaping performed by Rust `Debug` formatting
of character and string payloads (the `Debug` impls live outside `src/`).
Only the escapes relevant to the claims are spelled out; other characters
print as themselves. -/
def escapeChar (c : Char) : String :=
  if c = backslash then String.singleton backslash ++ String.singleton backslash
  else if c = squote then String.singleton backslash ++ String.singleton squote
  else if c = dquote then String.singleton backslash ++ String.singleton dquote
  else if c = Char.ofNat 10 then String.singleton backslash ++ "n"
  else if c = Char.ofNat 9 then String.singleton backslash ++ "t"
  else if c = Char.ofNat 13 then String.singleton backslash ++ "r"
  else String.singleton c

/-- Escape every character of a string for `Debug` formatting. -/
def escapeString (s : String) : String :=
  String.join (s.toList.map escapeChar)

/-- Modelled from the spec: `Display` formatting of a 64-bit float.  The exact
digit string of Rust float formatting is not modelled; no claim inspects
float text, only that formatting is total. -/
def floatDisplay (x : Float) : String := toString x

/-- Rust `Display` formatting (`\x7b\x7d` format specifier) of each payload,
as used by `to_string::<T>` in `src/packages/string_basic.rs` line 22.
Arrays and maps have no `Display` impl in Rust and `to_string` is never
registered for them (they use `to_debug` and `format_map` instead), so this
model gives them the empty string; those branches are unreachable through
the registration list.  The unit branch is likewise unreachable: the package
registers a dedicated closure for unit instead of `to_string::<()>`. -/
def Dynamic.display : Dynamic → String
  | .vInt i => toString i
  | .vBool b => if b then "true" else "false"
  | .vChar c => String.singleton c
  | .vUnit => ""
  | .vString s => s
  | .vI8 i => toString i
  | .vU8 i => toString i
  | .vI16 i => toString i
  | .vU16 i => toString i
  | .vI32 i => toString i
  | .vU32 i => toString i
  | .vU64 i => toString i
  | .vI128 i => toString i
  | .vU128 i => toString i
  | .vF32 x => floatDisplay x
  | .vF64 x => floatDisplay x
  | .vArray _ => ""
  | .vMap _ => ""

/-- Rust `Debug` formatting (`\x7b:?\x7d` format specifier) of each payload,
as used by `to_debug::<T>` (`src/packages/string_basic.rs` line 19) and by
`format_map` (line 26).  The `Debug` impls of the payload types and of
`Dynamic` itself live outside `src/`; modelled from the spec: numbers print
as decimal, booleans as `true`/`false`, unit as `()`, characters
single-quoted, strings double-quoted with escapes, arrays bracketed
comma-separated element debugs, and maps braced comma-separated
`"key": value` entries. -/
def Dynamic.debug : Dynamic → String
  | .vInt i => toString i
  | .vBool b => if b then "true" else "false"
  | .vChar c => String.singleton squote ++ escapeChar c ++ String.singleton squote
  | .vUnit => "()"
  | .vString s => String.singleton dquote ++ escapeString s ++ String.singleton dquote
  | .vI8 i => toString i
  | .vU8 i => toString i
  | .vI16 i => toString i
  | .vU16 i => toString i
  | .vI32 i => toString i
  | .vU32 i => toString i
  | .vU64 i => toString i
  | .vI128 i => toString i
  | .vU128 i => toString i
  | .vF32 x => floatDisplay x
  | .vF64 x => floatDisplay x
  | .vArray a => "[" ++ String.intercalate ", " (a.attach.map fun v => Dynamic.debug v.1) ++ "]"
  | .vMap m =>
      "\x7b" ++
        String.intercalate ", "
          (m.attach.map fun p =>
            String.singleton dquote ++ escapeString p.1.1 ++ String.singleton dquote ++
              ": " ++ Dynamic.debug p.1.2) ++
        "\x7d"
decreasing_by
  · have h := List.sizeOf_lt_of_mem v.2
    simp only [Dynamic.vArray.sizeOf_spec]
    omega
  · obtain ⟨⟨k, w⟩, hp⟩ := p
    have h := List.sizeOf_lt_of_mem hp
    simp only [Prod.mk.sizeOf_spec] at h
    simp only [Dynamic.vMap.sizeOf_spec]
    omega

/-- Invocation-time errors of the uniform adapter contract (spec section 7):
argument-count and argument-type mismatches are contract violations that the
adapter surfaces as runtime invocation errors; the closures of the string
package never produce a declared native failure of their own. -/
inductive AdapterError where
  | arityMismatch
  | typeMismatch
  deriving DecidableEq

/-- The distinct native functions and closures registered by the
`BasicStringPackage` (`src/packages/string_basic.rs`):
`toStringFn t` is the monomorphization `to_string::<T>` (line 22),
`toDebugFn t` is `to_debug::<T>` (line 19),
`printNoArgs` is the zero-argument closure of line 40,
`unitEmpty` is the unit-consuming closure of lines 41 and 42,
`stringIdent` is the string-cloning closure of lines 44 and 45,
`formatMapFn` is `format_map` (line 26), and the remaining four are the
concatenation and append closures of lines 81 to 111. -/
inductive PkgFn where
  | toStringFn (t : TypeTag)
  | toDebugFn (t : TypeTag)
  | printNoArgs
  | unitEmpty
  | stringIdent
  | formatMapFn
  | addStrChar
  | addStrStr
  | appendStrChar
  | appendStrStr
  deriving DecidableEq

/-- The argument-type signature each package function is registered under. -/
def PkgFn.sig : PkgFn → List TypeTag
  | .toStringFn t => [t]
  | .toDebugFn t => [t]
  | .printNoArgs => []
  | .unitEmpty => [.tUnit]
  | .stringIdent => [.tString]
  | .formatMapFn => [.tMap]
  | .addStrChar => [.tString, .tChar]
  | .addStrStr => [.tString, .tString]
  | .appendStrChar => [.tString, .tChar]
  | .appendStrStr => [.tString, .tString]

/-- Uniform adapter invocation: run one package function on a sequence of
Dynamic argument slots, returning the result value together with the
post-call contents of the argument slots (receiver-style functions mutate
their first slot in place; all others leave the slots untouched).  Each
success branch is translated from the corresponding function body in
`src/packages/string_basic.rs`; the mismatch branches model the adapter
downcast contract of spec sections 4.1 and 7. -/
def PkgFn.invoke : PkgFn → List Dynamic → Except AdapterError (Dynamic × List Dynamic)
  | .toStringFn t, [v] =>
      if v.tagOf = t then .ok (.vString v.display, [v]) else .error .typeMismatch
  | .toDebugFn t, [v] =>
      if v.tagOf = t then .ok (.vString v.debug, [v]) else .error .typeMismatch
  | .printNoArgs, [] => .ok (.vString "", [])
  | .unitEmpty, [.vUnit] => .ok (.vString "", [.vUnit])
  | .stringIdent, [.vString s] => .ok (.vString s, [.vString s])
  | .formatMapFn, [.vMap m] =>
      .ok (.vString ("#" ++ Dynamic.debug (.vMap m)), [.vMap m])
  | .addStrChar, [.vString s, .vChar c] =>
      .ok (.vString (s.push c), [.vString s, .vChar c])
  | .addStrStr, [.vString s, .vString s2] =>
      .ok (.vString (s ++ s2), [.vString s, .vString s2])
  | .appendStrChar, [.vString s, .vChar c] =>
      .ok (.vUnit, [.vString (s.push c), .vChar c])
  | .appendStrStr, [.vString s, .vString s2] =>
      .ok (.vUnit, [.vString (s ++ s2), .vString s2])
  | f, args =>
      if args.length = f.sig.length then .error .typeMismatch
      else .error .arityMismatch

/-- Modelled from the spec: the function-table lookup key — a textual name
plus the argument-type signature (spec section 3, Function Identifier).  The
fallible `set_fn_*` / `set_fn_*_mut` registration entry points of the module
type live outside `src/` and share one key space per name and parameter
type list. -/
structure FnKey where
  name : String
  argTypes : List TypeTag
  deriving DecidableEq

/-- Modelled from the spec: the Engine function table — a mapping from keys
to registered entries (spec sections 3 and 9). -/
def FnTable := FnKey → Option PkgFn

/-- The empty function table. -/
def emptyTable : FnTable := fun _ => none

/-- Modelled from the spec: inserting one entry into the function table,
overwriting any previous entry under the same key — the documented
last-write-wins collision policy (spec sections 5 and 9). -/
def setFn (k : FnKey) (f : PkgFn) (t : FnTable) : FnTable :=
  fun k2 => if k2 = k then some f else t k2

/-- Apply a sequence of registrations to a table, in order. -/
def applyRegs (rs : List (FnKey × PkgFn)) (t : FnTable) : FnTable :=
  rs.foldl (fun acc p => setFn p.1 p.2 acc) t

/-- Modelled from the spec: the reserved print keyword registration key
(spec section 6; the `crate::engine` constant lives outside `src/`). -/
def KEYWORD_PRINT : String := "print"

/-- Modelled from the spec: the reserved to-string function name
(spec section 6; the `crate::engine` constant lives outside `src/`). -/
def FUNC_TO_STRING : String := "to_string"

/-- Modelled from the spec: the reserved debug keyword registration key
(spec section 6; the `crate::engine` constant lives outside `src/`). -/
def KEYWORD_DEBUG : String := "debug"

/-- The `INT` alias is `i64` in the default build configuration. -/
def INT : TypeTag := .tI64

/-- The registrations performed by the body of the
`def_package!(crate:BasicStringPackage: ...)` block of
`src/packages/string_basic.rs` lines 36 to 112, in source order, with every
feature-gated block enabled (default build).  `reg_op!` expands to one
`set_fn_1_mut` per listed parameter type. -/
def basicStringRegs : List (FnKey × PkgFn) :=
  [ (FnKey.mk KEYWORD_PRINT [INT], PkgFn.toStringFn INT),
    (FnKey.mk KEYWORD_PRINT [TypeTag.tBool], PkgFn.toStringFn TypeTag.tBool),
    (FnKey.mk KEYWORD_PRINT [TypeTag.tChar], PkgFn.toStringFn TypeTag.tChar),
    (FnKey.mk FUNC_TO_STRING [INT], PkgFn.toStringFn INT),
    (FnKey.mk FUNC_TO_STRING [TypeTag.tBool], PkgFn.toStringFn TypeTag.tBool),
    (FnKey.mk FUNC_TO_STRING [TypeTag.tChar], PkgFn.toStringFn TypeTag.tChar),
    (FnKey.mk KEYWORD_PRINT [], PkgFn.printNoArgs),
    (FnKey.mk KEYWORD_PRINT [TypeTag.tUnit], PkgFn.unitEmpty),
    (FnKey.mk FUNC_TO_STRING [TypeTag.tUnit], PkgFn.unitEmpty),
    (FnKey.mk KEYWORD_PRINT [TypeTag.tString], PkgFn.stringIdent),
    (FnKey.mk FUNC_TO_STRING [TypeTag.tString], PkgFn.stringIdent),
    (FnKey.mk KEYWORD_DEBUG [INT], PkgFn.toDebugFn INT),
    (FnKey.mk KEYWORD_DEBUG [TypeTag.tBool], PkgFn.toDebugFn TypeTag.tBool),
    (FnKey.mk KEYWORD_DEBUG [TypeTag.tUnit], PkgFn.toDebugFn TypeTag.tUnit),
    (FnKey.mk KEYWORD_DEBUG [TypeTag.tChar], PkgFn.toDebugFn TypeTag.tChar),
    (FnKey.mk KEYWORD_DEBUG [TypeTag.tString], PkgFn.toDebugFn TypeTag.tString),
    (FnKey.mk KEYWORD_PRINT [TypeTag.tI8], PkgFn.toStringFn TypeTag.tI8),
    (FnKey.mk KEYWORD_PRINT [TypeTag.tU8], PkgFn.toStringFn TypeTag.tU8),
    (FnKey.mk KEYWORD_PRINT [TypeTag.tI16], PkgFn.toStringFn TypeTag.tI16),
    (FnKey.mk KEYWORD_PRINT [TypeTag.tU16], PkgFn.toStringFn TypeTag.tU16),
    (FnKey.mk KEYWORD_PRINT [TypeTag.tI32], PkgFn.toStringFn TypeTag.tI32),
    (FnKey.mk KEYWORD_PRINT [TypeTag.tU32], PkgFn.toStringFn TypeTag.tU32),
    (FnKey.mk FUNC_TO_STRING [TypeTag.tI8], PkgFn.toStringFn TypeTag.tI8),
    (FnKey.mk FUNC_TO_STRING [TypeTag.tU8], PkgFn.toStringFn TypeTag.tU8),
    (FnKey.mk FUNC_TO_STRING [TypeTag.tI16], PkgFn.toStringFn TypeTag.tI16),
    (FnKey.mk FUNC_TO_STRING [TypeTag.tU16], PkgFn.toStringFn TypeTag.tU16),
    (FnKey.mk FUNC_TO_STRING [TypeTag.tI32], PkgFn.toStringFn TypeTag.tI32),
    (FnKey.mk FUNC_TO_STRING [TypeTag.tU32], PkgFn.toStringFn TypeTag.tU32),
    (FnKey.mk KEYWORD_DEBUG [TypeTag.tI8], PkgFn.toDebugFn TypeTag.tI8),
    (FnKey.mk KEYWORD_DEBUG [TypeTag.tU8], PkgFn.toDebugFn TypeTag.tU8),
    (FnKey.mk KEYWORD_DEBUG [TypeTag.tI16], PkgFn.toDebugFn TypeTag.tI16),
    (FnKey.mk KEYWORD_DEBUG [TypeTag.tU16], PkgFn.toDebugFn TypeTag.tU16),
    (FnKey.mk KEYWORD_DEBUG [TypeTag.tI32], PkgFn.toDebugFn TypeTag.tI32),
    (FnKey.mk KEYWORD_DEBUG [TypeTag.tU32], PkgFn.toDebugFn TypeTag.tU32),
    (FnKey.mk KEYWORD_PRINT [TypeTag.tI64], PkgFn.toStringFn TypeTag.tI64),
    (FnKey.mk KEYWORD_PRINT [TypeTag.tU64], PkgFn.toStringFn TypeTag.tU64),
    (FnKey.mk KEYWORD_PRINT [TypeTag.tI128], PkgFn.toStringFn TypeTag.tI128),
    (FnKey.mk KEYWORD_PRINT [TypeTag.tU128], PkgFn.toStringFn TypeTag.tU128),
    (FnKey.mk FUNC_TO_STRING [TypeTag.tI64], PkgFn.toStringFn TypeTag.tI64),
    (FnKey.mk FUNC_TO_STRING [TypeTag.tU64], PkgFn.toStringFn TypeTag.tU64),
    (FnKey.mk FUNC_TO_STRING [TypeTag.tI128], PkgFn.toStringFn TypeTag.tI128),
    (FnKey.mk FUNC_TO_STRING [TypeTag.tU128], PkgFn.toStringFn TypeTag.tU128),
    (FnKey.mk KEYWORD_DEBUG [TypeTag.tI64], PkgFn.toDebugFn TypeTag.tI64),
    (FnKey.mk KEYWORD_DEBUG [TypeTag.tU64], PkgFn.toDebugFn TypeTag.tU64),
    (FnKey.mk KEYWORD_DEBUG [TypeTag.tI128], PkgFn.toDebugFn TypeTag.tI128),
    (FnKey.mk KEYWORD_DEBUG [TypeTag.tU128], PkgFn.toDebugFn TypeTag.tU128),
    (FnKey.mk KEYWORD_PRINT [TypeTag.tF32], PkgFn.toStringFn TypeTag.tF32),
    (FnKey.mk KEYWORD_PRINT [TypeTag.tF64], PkgFn.toStringFn TypeTag.tF64),
    (FnKey.mk FUNC_TO_STRING [TypeTag.tF32], PkgFn.toStringFn TypeTag.tF32),
    (FnKey.mk FUNC_TO_STRING [TypeTag.tF64], PkgFn.toStringFn TypeTag.tF64),
    (FnKey.mk KEYWORD_DEBUG [TypeTag.tF32], PkgFn.toDebugFn TypeTag.tF32),
    (FnKey.mk KEYWORD_DEBUG [TypeTag.tF64], PkgFn.toDebugFn TypeTag.tF64),
    (FnKey.mk KEYWORD_PRINT [TypeTag.tArray], PkgFn.toDebugFn TypeTag.tArray),
    (FnKey.mk FUNC_TO_STRING [TypeTag.tArray], PkgFn.toDebugFn TypeTag.tArray),
    (FnKey.mk KEYWORD_DEBUG [TypeTag.tArray], PkgFn.toDebugFn TypeTag.tArray),
    (FnKey.mk KEYWORD_PRINT [TypeTag.tMap], PkgFn.formatMapFn),
    (FnKey.mk FUNC_TO_STRING [TypeTag.tMap], PkgFn.formatMapFn),
    (FnKey.mk KEYWORD_DEBUG [TypeTag.tMap], PkgFn.formatMapFn),
    (FnKey.mk "+" [TypeTag.tString, TypeTag.tChar], PkgFn.addStrChar),
    (FnKey.mk "+" [TypeTag.tString, TypeTag.tString], PkgFn.addStrStr),
    (FnKey.mk "append" [TypeTag.tString, TypeTag.tChar], PkgFn.appendStrChar),
    (FnKey.mk "append" [TypeTag.tString, TypeTag.tString], PkgFn.appendStrStr) ]

/-- The `init(lib)` entry point of the `BasicStringPackage`: merge every
registration of the package body into the target function table. -/
def BasicStringPackage.init (lib : FnTable) : FnTable :=
  applyRegs basicStringRegs lib

/-- The function table obtained by merging the `BasicStringPackage` into an
empty table. -/
def basicLib : FnTable :=
  BasicStringPackage.init emptyTable

/-- Look up a table entry by name and by the runtime type identities of the
argument values — the signature-matching dispatch step — and invoke it.
Returns `none` when no entry exists under that key. -/
def callFn (t : FnTable) (name : String) (args : List Dynamic) :
    Option (Except AdapterError (Dynamic × List Dynamic)) :=
  match t ⟨name, args.map Dynamic.tagOf⟩ with
  | some f => some (f.invoke args)
  | none => none

/-- The entry that a sequence of registrations leaves under key `k`, if any:
the last write to `k` wins. -/
def lastWrite : List (FnKey × PkgFn) → FnKey → Option PkgFn
  | [], _ => none
  | p :: rs, k =>
      match lastWrite rs k with
      | some f => some f
      | none => if k = p.1 then some p.2 else none

/-- Modelled from the spec: the registration keys of the Engine
function-table surface consumed by the Type Builder (spec section 6) —
named functions keyed by name and parameter-type signature, named property
getters and setters, and index operators.  Type identities of custom types
are abstracted to their canonical type-name strings. -/
inductive RegKey where
  | fnKey (name : String) (sig : List String)
  | getterKey (ty : String) (name : String)
  | setterKey (ty : String) (name : String)
  | indexGetKey (ty : String) (idx : String)
  | indexSetKey (ty : String) (idx : String)
  deriving DecidableEq

/-- One registration performed against the Engine surface: registering a
native type under its default engine-derived name, registering it under an
explicit pretty name, or registering one member function under a key.
Native closures are abstracted to `Nat` handles. -/
inductive RegEvent where
  | typeDefault (ty : String)
  | typeNamed (ty : String) (pretty : String)
  | fnReg (k : RegKey) (f : Nat)
  deriving DecidableEq

/-- Whether an event is a type registration (as opposed to a member
function registration). -/
def isTypeEvent : RegEvent → Bool
  | .typeDefault _ => true
  | .typeNamed _ _ => true
  | .fnReg _ _ => false

/-- Modelled from the spec: the Engine as seen through its registration
surface (spec section 6) — the registry of type display names, the registry
of member functions, and a log (newest first) of every registration
performed, used to state the exactly-once finalization property. -/
structure Engine where
  typeNames : String → Option String
  funcs : RegKey → Option Nat
  log : List RegEvent

/-- Modelled from the spec: `Engine::register_type::<T>` — register the
native type under its default engine-derived name, which is the canonical
name of the type itself. -/
def Engine.register_type (e : Engine) (ty : String) : Engine :=
  { e with
    typeNames := fun t => if t = ty then some ty else e.typeNames t,
    log := .typeDefault ty :: e.log }

/-- Modelled from the spec: `Engine::register_type_with_name::<T>(name)` —
register the native type under an explicit pretty name. -/
def Engine.register_type_with_name (e : Engine) (ty pretty : String) : Engine :=
  { e with
    typeNames := fun t => if t = ty then some pretty else e.typeNames t,
    log := .typeNamed ty pretty :: e.log }

/-- Modelled from the spec: the common member-registration step — insert an
entry under a key, last write wins, and log the registration. -/
def Engine.registerRaw (e : Engine) (k : RegKey) (f : Nat) : Engine :=
  { e with
    funcs := fun k2 => if k2 = k then some f else e.funcs k2,
    log := .fnReg k f :: e.log }

/-- Modelled from the spec: `Engine::register_fn`. -/
def Engine.register_fn (e : Engine) (name : String) (sig : List String) (f : Nat) : Engine :=
  e.registerRaw (.fnKey name sig) f

/-- Modelled from the spec: `Engine::register_result_fn`; at the
registration layer it records an entry under the same key space as
`register_fn`. -/
def Engine.register_result_fn (e : Engine) (name : String) (sig : List String) (f : Nat) : Engine :=
  e.registerRaw (.fnKey name sig) f

/-- Modelled from the spec: `Engine::register_get` for receiver type `ty`. -/
def Engine.register_get (e : Engine) (ty name : String) (f : Nat) : Engine :=
  e.registerRaw (.getterKey ty name) f

/-- Modelled from the spec: `Engine::register_get_result`. -/
def Engine.register_get_result (e : Engine) (ty name : String) (f : Nat) : Engine :=
  e.registerRaw (.getterKey ty name) f

/-- Modelled from the spec: `Engine::register_set`. -/
def Engine.register_set (e : Engine) (ty name : String) (f : Nat) : Engine :=
  e.registerRaw (.setterKey ty name) f

/-- Modelled from the spec: `Engine::register_set_result`. -/
def Engine.register_set_result (e : Engine) (ty name : String) (f : Nat) : Engine :=
  e.registerRaw (.setterKey ty name) f

/-- Modelled from the spec: `Engine::register_get_set` — the convenience
entry point combining getter and setter registration (spec section 4.2:
equivalent to calling both individually). -/
def Engine.register_get_set (e : Engine) (ty name : String) (g s : Nat) : Engine :=
  (e.register_get ty name g).register_set ty name s

/-- Modelled from the spec: `Engine::register_indexer_get` for receiver
type `ty` and index type `idx`. -/
def Engine.register_indexer_get (e : Engine) (ty idx : String) (f : Nat) : Engine :=
  e.registerRaw (.indexGetKey ty idx) f

/-- Modelled from the spec: `Engine::register_indexer_get_result`. -/
def Engine.register_indexer_get_result (e : Engine) (ty idx : String) (f : Nat) : Engine :=
  e.registerRaw (.indexGetKey ty idx) f

/-- Modelled from the spec: `Engine::register_indexer_set`. -/
def Engine.register_indexer_set (e : Engine) (ty idx : String) (f : Nat) : Engine :=
  e.registerRaw (.indexSetKey ty idx) f

/-- Modelled from the spec: `Engine::register_indexer_set_result`. -/
def Engine.register_indexer_set_result (e : Engine) (ty idx : String) (f : Nat) : Engine :=
  e.registerRaw (.indexSetKey ty idx) f

/-- Modelled from the spec: `Engine::register_indexer_get_set` — index
getter then index setter. -/
def Engine.register_indexer_get_set (e : Engine) (ty idx : String) (g s : Nat) : Engine :=
  (e.register_indexer_get ty idx g).register_indexer_set ty idx s

/-- The `TypeBuilder` state (`src/api/build_type.rs` lines 98 to 105): the
exclusively borrowed Engine (state-passed here) and the optional pretty
name; the type parameter `T` appears as the `ty` argument of the
operations that need it. -/
structure TypeBuilder where
  engine : Engine
  name : Option String

/-- Constructor `TypeBuilder::new` (`src/api/build_type.rs` lines 111 to 118): bind the
engine, no display name, no pending members. -/
def TypeBuilder.new (e : Engine) : TypeBuilder :=
  { engine := e, name := none }

/-- One call of a `TypeBuilder` method, as data: the body of a
`CustomType::build` implementation is embedded as a list of these.
Native closures are abstracted to `Nat` handles, the inferred signature of
a `with_fn` argument to its parameter-type-name list, and value/index types
of getters, setters and indexers to type-name strings. -/
inductive BuilderOp where
  | with_name (n : String)
  | with_fn (name : String) (sig : List String) (f : Nat)
  | with_result_fn (name : String) (sig : List String) (f : Nat)
  | with_get (name : String) (f : Nat)
  | with_get_result (name : String) (f : Nat)
  | with_set (name : String) (f : Nat)
  | with_set_result (name : String) (f : Nat)
  | with_get_set (name : String) (g : Nat) (s : Nat)
  | with_indexer_get (idx : String) (f : Nat)
  | with_indexer_get_result (idx : String) (f : Nat)
  | with_indexer_set (idx : String) (f : Nat)
  | with_indexer_set_result (idx : String) (f : Nat)
  | with_indexer_get_set (idx : String) (g : Nat) (s : Nat)

/-- Run one `TypeBuilder` method (`src/api/build_type.rs` lines 121 to 315)
for the builder of native type `ty`: `with_name` records the pretty name
(last write wins), every other method registers into the engine at once and
leaves the name untouched; each method returns the builder for chaining. -/
def TypeBuilder.runOp (ty : String) : BuilderOp → TypeBuilder → TypeBuilder
  | .with_name n, b => { b with name := some n }
  | .with_fn name sig f, b => { b with engine := b.engine.register_fn name sig f }
  | .with_result_fn name sig f, b => { b with engine := b.engine.register_result_fn name sig f }
  | .with_get name f, b => { b with engine := b.engine.register_get ty name f }
  | .with_get_result name f, b => { b with engine := b.engine.register_get_result ty name f }
  | .with_set name f, b => { b with engine := b.engine.register_set ty name f }
  | .with_set_result name f, b => { b with engine := b.engine.register_set_result ty name f }
  | .with_get_set name g s, b => { b with engine := b.engine.register_get_set ty name g s }
  | .with_indexer_get idx f, b => { b with engine := b.engine.register_indexer_get ty idx f }
  | .with_indexer_get_result idx f, b =>
      { b with engine := b.engine.register_indexer_get_result ty idx f }
  | .with_indexer_set idx f, b => { b with engine := b.engine.register_indexer_set ty idx f }
  | .with_indexer_set_result idx f, b =>
      { b with engine := b.engine.register_indexer_set_result ty idx f }
  | .with_indexer_get_set idx g s, b =>
      { b with engine := b.engine.register_indexer_get_set ty idx g s }

/-- Run a `CustomType::build` body: apply its builder calls in order. -/
def TypeBuilder.runOps (ty : String) (ops : List BuilderOp) (b : TypeBuilder) : TypeBuilder :=
  ops.foldl (fun b op => TypeBuilder.runOp ty op b) b

/-- The `Drop` impl for `TypeBuilder` (`src/api/build_type.rs` lines 317 to
329): on scope exit, register the type with its pretty name when one was
recorded, under its default name otherwise. -/
def TypeBuilder.drop (ty : String) (b : TypeBuilder) : Engine :=
  match b.name with
  | some n => b.engine.register_type_with_name ty n
  | none => b.engine.register_type ty

/-- Entry point `Engine::build_type::<T>()` (`src/api/build_type.rs` lines 81 to 87):
run `T::build` (embedded as `ops`) on a fresh builder bound to the engine;
the builder is consumed and dropped at the end of `build`, and the updated
engine is returned for chaining. -/
def Engine.build_type (e : Engine) (ty : String) (ops : List BuilderOp) : Engine :=
  TypeBuilder.drop ty (TypeBuilder.runOps ty ops (TypeBuilder.new e))

/-- The pretty name recorded after a sequence of builder calls starting
from recorded name `cur`: the argument of the last `with_name` call wins. -/
def lastNameFrom (ops : List BuilderOp) (cur : Option String) : Option String :=
  ops.foldl
    (fun acc op =>
      match op with
      | .with_name n => some n
      | _ => acc)
    cur

/-- The argument of the last `with_name` call of a build body, if any. -/
def lastName (ops : List BuilderOp) : Option String :=
  lastNameFrom ops none

/-- The single type-registration event that dropping the builder for `ty`
after running `ops` must produce. -/
def finalTypeEvent (ty : String) (ops : List BuilderOp) : RegEvent :=
  match lastName ops with
  | some n => .typeNamed ty n
  | none => .typeDefault ty

/-- The member-registration events one builder call performs, oldest
first. -/
def opEvents (ty : String) : BuilderOp → List RegEvent
  | .with_name _ => []
  | .with_fn name sig f => [.fnReg (.fnKey name sig) f]
  | .with_result_fn name sig f => [.fnReg (.fnKey name sig) f]
  | .with_get name f => [.fnReg (.getterKey ty name) f]
  | .with_get_result name f => [.fnReg (.getterKey ty name) f]
  | .with_set name f => [.fnReg (.setterKey ty name) f]
  | .with_set_result name f => [.fnReg (.setterKey ty name) f]
  | .with_get_set name g s => [.fnReg (.getterKey ty name) g, .fnReg (.setterKey ty name) s]
  | .with_indexer_get idx f => [.fnReg (.indexGetKey ty idx) f]
  | .with_indexer_get_result idx f => [.fnReg (.indexGetKey ty idx) f]
  | .with_indexer_set idx f => [.fnReg (.indexSetKey ty idx) f]
  | .with_indexer_set_result idx f => [.fnReg (.indexSetKey ty idx) f]
  | .with_indexer_get_set idx g s =>
      [.fnReg (.indexGetKey ty idx) g, .fnReg (.indexSetKey ty idx) s]

/-- The member-registration events a whole build body performs, oldest
first. -/
def opsEvents (ty : String) (ops : List BuilderOp) : List RegEvent :=
  (ops.map (opEvents ty)).flatten

theorem applyRegs_cons (p : FnKey × PkgFn) (rs : List (FnKey × PkgFn)) (t : FnTable) :
    applyRegs (p :: rs) t = applyRegs rs (setFn p.1 p.2 t) := rfl

theorem applyRegs_eq_lastWrite (rs : List (FnKey × PkgFn)) (t : FnTable) (k : FnKey) :
    applyRegs rs t k =
      match lastWrite rs k with
      | some f => some f
      | none => t k := by
  induction rs generalizing t with
  | nil => rfl
  | cons p rs ih =>
      rw [applyRegs_cons, ih]
      cases hlw : lastWrite rs k with
      | some f => simp [lastWrite, hlw]
      | none =>
          simp only [lastWrite, hlw, setFn]
          by_cases hk : k = p.1 <;> simp [hk]

theorem runOps_cons (ty : String) (op : BuilderOp) (ops : List BuilderOp) (b : TypeBuilder) :
    TypeBuilder.runOps ty (op :: ops) b
      = TypeBuilder.runOps ty ops (TypeBuilder.runOp ty op b) := rfl

theorem runOps_name (ty : String) (ops : List BuilderOp) (b : TypeBuilder) :
    (TypeBuilder.runOps ty ops b).name = lastNameFrom ops b.name := by
  induction ops generalizing b with
  | nil => rfl
  | cons op ops ih =>
      rw [runOps_cons, ih]
      cases op <;> rfl

theorem runOp_log (ty : String) (op : BuilderOp) (b : TypeBuilder) :
    (TypeBuilder.runOp ty op b).engine.log = (opEvents ty op).reverse ++ b.engine.log := by
  cases op <;>
    simp [TypeBuilder.runOp, opEvents, Engine.register_fn, Engine.register_result_fn,
      Engine.register_get, Engine.register_get_result, Engine.register_set,
      Engine.register_set_result, Engine.register_get_set, Engine.register_indexer_get,
      Engine.register_indexer_get_result, Engine.register_indexer_set,
      Engine.register_indexer_set_result, Engine.register_indexer_get_set,
      Engine.registerRaw]

theorem runOps_log (ty : String) (ops : List BuilderOp) (b : TypeBuilder) :
    (TypeBuilder.runOps ty ops b).engine.log
      = (opsEvents ty ops).reverse ++ b.engine.log := by
  induction ops generalizing b with
  | nil => rfl
  | cons op ops ih =>
      rw [runOps_cons, ih, runOp_log]
      simp [opsEvents, List.reverse_append, List.append_assoc]

theorem opEvents_not_type (ty : String) (op : BuilderOp) :
    ∀ ev ∈ opEvents ty op, isTypeEvent ev = false := by
  cases op <;> simp [opEvents, isTypeEvent]

theorem opsEvents_not_type (ty : String) (ops : List BuilderOp) :
    ∀ ev ∈ opsEvents ty ops, ¬ isTypeEvent ev = true := by
  intro ev hev
  simp only [opsEvents, List.mem_flatten, List.mem_map] at hev
  obtain ⟨l, ⟨op, _, rfl⟩, hevl⟩ := hev
  simp [opEvents_not_type ty op ev hevl]

/-- C1: dropping a `TypeBuilder<T>` registers the type into the Engine
exactly once on scope exit, whatever member registrations the build body
made (including none): the registration log gains exactly one
type-registration event — via `register_type_with_name` under the argument
of the last `with_name` call when `with_name` was called at least once, via
`register_type` otherwise — and the type-name registry afterwards maps the
type to that pretty name, or to the default engine-derived name. -/
theorem buildType_registers_type_exactly_once
    (ty : String) (ops : List BuilderOp) (e : Engine) :
    ((e.build_type ty ops).log.filter isTypeEvent
        = finalTypeEvent ty ops :: e.log.filter isTypeEvent)
    ∧ (e.build_type ty ops).typeNames ty = some ((lastName ops).getD ty) := by
  have hname : (TypeBuilder.runOps ty ops (TypeBuilder.new e)).name = lastName ops :=
    runOps_name ty ops (TypeBuilder.new e)
  have hlog : (TypeBuilder.runOps ty ops (TypeBuilder.new e)).engine.log
      = (opsEvents ty ops).reverse ++ e.log :=
    runOps_log ty ops (TypeBuilder.new e)
  unfold Engine.build_type TypeBuilder.drop
  rw [hname]
  unfold finalTypeEvent
  cases hl : lastName ops with
  | none =>
      constructor
      · simp only [Engine.register_type, List.filter_cons, isTypeEvent, hlog]
        simp only [List.filter_append, List.filter_reverse]
        rw [List.filter_eq_nil_iff.mpr (opsEvents_not_type ty ops)]
        simp
      · simp [Engine.register_type]
  | some n =>
      constructor
      · simp only [Engine.register_type_with_name, List.filter_cons, isTypeEvent, hlog]
        simp only [List.filter_append, List.filter_reverse]
        rw [List.filter_eq_nil_iff.mpr (opsEvents_not_type ty ops)]
        simp
      · simp [Engine.register_type_with_name]

/-- C5: `with_get_set(name, getter, setter)` leaves the builder — and hence
the Engine — in exactly the state produced by `with_get(name, getter)`
followed by `with_set(name, setter)` on the same builder. -/
theorem with_get_set_eq_get_then_set (ty name : String) (g s : Nat) (b : TypeBuilder) :
    TypeBuilder.runOp ty (.with_get_set name g s) b
      = TypeBuilder.runOp ty (.with_set name s) (TypeBuilder.runOp ty (.with_get name g) b) :=
  rfl

/-- C7: registration is infallible at the registration layer — every
operation is a total state transformer with no error outcome — and a
registration under an already-present key replaces the earlier entry (last
write wins) rather than producing an error: re-registering makes the table
indistinguishable from one where the first registration never happened,
both for the package function table and for the Engine surface used by the
Type Builder. -/
theorem registration_infallible_last_write_wins
    (t : FnTable) (k k2 : FnKey) (f1 f2 : PkgFn)
    (e : Engine) (rk : RegKey) (g1 g2 : Nat) :
    setFn k f2 (setFn k f1 t) k2 = setFn k f2 t k2
    ∧ setFn k f2 t k = some f2
    ∧ ((e.registerRaw rk g1).registerRaw rk g2).funcs rk = some g2 := by
  refine ⟨?_, ?_, ?_⟩
  · simp only [setFn]
    by_cases h : k2 = k <;> simp [h]
  · simp [setFn]
  · simp [Engine.registerRaw]

/-- C8: `Engine::build_type::<T>()` threads the engine through exactly one
run of `T::build` on a fresh builder and one finalization, and hands the
updated engine back for chaining: its registration log is the incoming
log of the incoming engine extended by precisely the member events of the
build body, in call order, topped by the single final type registration. -/
theorem build_type_runs_build_once (ty : String) (ops : List BuilderOp) (e : Engine) :
    (e.build_type ty ops).log
      = finalTypeEvent ty ops :: ((opsEvents ty ops).reverse ++ e.log) := by
  have hname : (TypeBuilder.runOps ty ops (TypeBuilder.new e)).name = lastName ops :=
    runOps_name ty ops (TypeBuilder.new e)
  have hlog : (TypeBuilder.runOps ty ops (TypeBuilder.new e)).engine.log
      = (opsEvents ty ops).reverse ++ e.log :=
    runOps_log ty ops (TypeBuilder.new e)
  unfold Engine.build_type TypeBuilder.drop
  rw [hname]
  unfold finalTypeEvent
  cases hl : lastName ops with
  | none => simp [Engine.register_type, hlog]
  | some n => simp [Engine.register_type_with_name, hlog]

theorem map_tagOf_eq_one {args : List Dynamic} {t : TypeTag}
    (h : args.map Dynamic.tagOf = [t]) :
    ∃ v, args = [v] ∧ v.tagOf = t := by
  cases args with
  | nil => simp at h
  | cons a l =>
      cases l with
      | nil =>
          simp only [List.map_cons, List.map_nil, List.cons.injEq, and_true] at h
          exact ⟨a, rfl, h⟩
      | cons b l2 => simp at h

theorem map_tagOf_eq_two {args : List Dynamic} {t1 t2 : TypeTag}
    (h : args.map Dynamic.tagOf = [t1, t2]) :
    ∃ v w, args = [v, w] ∧ v.tagOf = t1 ∧ w.tagOf = t2 := by
  cases args with
  | nil => simp at h
  | cons a l =>
      cases l with
      | nil => simp at h
      | cons b l2 =>
          cases l2 with
          | nil =>
              simp only [List.map_cons, List.map_nil, List.cons.injEq, and_true] at h
              exact ⟨a, b, rfl, h.1, h.2⟩
          | cons c l3 => simp at h

theorem tag_unit {v : Dynamic} (h : v.tagOf = TypeTag.tUnit) : v = Dynamic.vUnit := by
  cases v <;> first | rfl | simp [Dynamic.tagOf] at h

theorem tag_string {v : Dynamic} (h : v.tagOf = TypeTag.tString) :
    ∃ s, v = Dynamic.vString s := by
  cases v <;> first | exact ⟨_, rfl⟩ | simp [Dynamic.tagOf] at h

theorem tag_char {v : Dynamic} (h : v.tagOf = TypeTag.tChar) :
    ∃ c, v = Dynamic.vChar c := by
  cases v <;> first | exact ⟨_, rfl⟩ | simp [Dynamic.tagOf] at h

theorem tag_map {v : Dynamic} (h : v.tagOf = TypeTag.tMap) :
    ∃ m, v = Dynamic.vMap m := by
  cases v <;> first | exact ⟨_, rfl⟩ | simp [Dynamic.tagOf] at h

theorem invoke_ok_of_sig (f : PkgFn) (args : List Dynamic)
    (h : args.map Dynamic.tagOf = f.sig) :
    ∃ r rest, f.invoke args = Except.ok (r, rest) := by
  cases f with
  | toStringFn t =>
      simp only [PkgFn.sig] at h
      obtain ⟨v, rfl, hv⟩ := map_tagOf_eq_one h
      exact ⟨Dynamic.vString v.display, [v], by simp [PkgFn.invoke, hv]⟩
  | toDebugFn t =>
      simp only [PkgFn.sig] at h
      obtain ⟨v, rfl, hv⟩ := map_tagOf_eq_one h
      exact ⟨Dynamic.vString v.debug, [v], by simp [PkgFn.invoke, hv]⟩
  | printNoArgs =>
      simp only [PkgFn.sig, List.map_eq_nil_iff] at h
      subst h
      exact ⟨_, _, rfl⟩
  | unitEmpty =>
      simp only [PkgFn.sig] at h
      obtain ⟨v, rfl, hv⟩ := map_tagOf_eq_one h
      obtain rfl := tag_unit hv
      exact ⟨_, _, rfl⟩
  | stringIdent =>
      simp only [PkgFn.sig] at h
      obtain ⟨v, rfl, hv⟩ := map_tagOf_eq_one h
      obtain ⟨s, rfl⟩ := tag_string hv
      exact ⟨_, _, rfl⟩
  | formatMapFn =>
      simp only [PkgFn.sig] at h
      obtain ⟨v, rfl, hv⟩ := map_tagOf_eq_one h
      obtain ⟨m, rfl⟩ := tag_map hv
      exact ⟨_, _, rfl⟩
  | addStrChar =>
      simp only [PkgFn.sig] at h
      obtain ⟨v, w, rfl, hv, hw⟩ := map_tagOf_eq_two h
      obtain ⟨s, rfl⟩ := tag_string hv
      obtain ⟨c, rfl⟩ := tag_char hw
      exact ⟨_, _, rfl⟩
  | addStrStr =>
      simp only [PkgFn.sig] at h
      obtain ⟨v, w, rfl, hv, hw⟩ := map_tagOf_eq_two h
      obtain ⟨s, rfl⟩ := tag_string hv
      obtain ⟨s2, rfl⟩ := tag_string hw
      exact ⟨_, _, rfl⟩
  | appendStrChar =>
      simp only [PkgFn.sig] at h
      obtain ⟨v, w, rfl, hv, hw⟩ := map_tagOf_eq_two h
      obtain ⟨s, rfl⟩ := tag_string hv
      obtain ⟨c, rfl⟩ := tag_char hw
      exact ⟨_, _, rfl⟩
  | appendStrStr =>
      simp only [PkgFn.sig] at h
      obtain ⟨v, w, rfl, hv, hw⟩ := map_tagOf_eq_two h
      obtain ⟨s, rfl⟩ := tag_string hv
      obtain ⟨s2, rfl⟩ := tag_string hw
      exact ⟨_, _, rfl⟩

/-- C4: merging the `BasicStringPackage` into the same table twice leaves
the table in the same observable state as merging it once — every
(name, signature) key maps to the same entry. -/
theorem basic_string_init_idempotent (lib : FnTable) (k : FnKey) :
    BasicStringPackage.init (BasicStringPackage.init lib) k
      = BasicStringPackage.init lib k := by
  show applyRegs basicStringRegs (applyRegs basicStringRegs lib) k
      = applyRegs basicStringRegs lib k
  rw [applyRegs_eq_lastWrite basicStringRegs (applyRegs basicStringRegs lib) k]
  cases hlw : lastWrite basicStringRegs k with
  | none => rfl
  | some f =>
      rw [applyRegs_eq_lastWrite basicStringRegs lib k, hlw]

/-- C2 counterexample: the debug-stringify entry applied to the unit value
returns the unit debug representation `()`, which is not the empty string,
and the to-string name has no zero-argument entry at all — refuting the
claim that each of these invocations returns Ok of the empty string. -/
theorem debug_unit_not_empty_string :
    callFn basicLib KEYWORD_DEBUG [Dynamic.vUnit]
        = some (Except.ok (Dynamic.vString "()", [Dynamic.vUnit]))
    ∧ "()" ≠ ""
    ∧ callFn basicLib FUNC_TO_STRING [] = none := by
  refine ⟨?_, by decide, rfl⟩
  have h : basicLib (FnKey.mk KEYWORD_DEBUG [TypeTag.tUnit])
      = some (PkgFn.toDebugFn TypeTag.tUnit) := rfl
  simp only [callFn, List.map_cons, List.map_nil, Dynamic.tagOf]
  rw [h]
  simp [PkgFn.invoke, Dynamic.tagOf, Dynamic.debug]

/-- C2 (amended): among the unit and empty-argument conversion entries the
package registers, the print entry with zero arguments, the print entry
with the unit value, and the to-string entry with the unit value each
return Ok of the empty string and never an error; the debug entry with the
unit value returns Ok of the unit debug representation `()`; the to-string
name has no zero-argument entry. -/
theorem stringify_unit_empty_amended :
    callFn basicLib KEYWORD_PRINT [] = some (Except.ok (Dynamic.vString "", []))
    ∧ callFn basicLib KEYWORD_PRINT [Dynamic.vUnit]
        = some (Except.ok (Dynamic.vString "", [Dynamic.vUnit]))
    ∧ callFn basicLib FUNC_TO_STRING [Dynamic.vUnit]
        = some (Except.ok (Dynamic.vString "", [Dynamic.vUnit]))
    ∧ callFn basicLib KEYWORD_DEBUG [Dynamic.vUnit]
        = some (Except.ok (Dynamic.vString "()", [Dynamic.vUnit]))
    ∧ callFn basicLib FUNC_TO_STRING [] = none := by
  refine ⟨rfl, rfl, rfl, ?_, rfl⟩
  have h : basicLib (FnKey.mk KEYWORD_DEBUG [TypeTag.tUnit])
      = some (PkgFn.toDebugFn TypeTag.tUnit) := rfl
  simp only [callFn, List.map_cons, List.map_nil, Dynamic.tagOf]
  rw [h]
  simp [PkgFn.invoke, Dynamic.tagOf, Dynamic.debug]

/-- C3: the value-returning `+` entry on string `ab` and character `c`
returns Ok `abc` and leaves the original string argument slot unchanged,
while the receiver-style `append` entry on a held string `ab` with `c`
mutates the held slot in place to `abc` and returns Ok of unit; the
mutation is visible by reading the first argument slot after the call. -/
theorem plus_returns_append_mutates :
    callFn basicLib "+" [Dynamic.vString "ab", Dynamic.vChar 'c']
        = some (Except.ok (Dynamic.vString "abc", [Dynamic.vString "ab", Dynamic.vChar 'c']))
    ∧ callFn basicLib "append" [Dynamic.vString "ab", Dynamic.vChar 'c']
        = some (Except.ok (Dynamic.vUnit, [Dynamic.vString "abc", Dynamic.vChar 'c'])) :=
  ⟨rfl, rfl⟩

/-- C6: for every object-map value, the print, to-string and debug entries
all format it as the marker character `#` immediately followed by the map
debug representation, distinguishing maps from plain containers at the
text level. -/
theorem map_marker_format (m : List (String × Dynamic)) :
    callFn basicLib KEYWORD_PRINT [Dynamic.vMap m]
        = some (Except.ok
            (Dynamic.vString ("#" ++ Dynamic.debug (Dynamic.vMap m)), [Dynamic.vMap m]))
    ∧ callFn basicLib FUNC_TO_STRING [Dynamic.vMap m]
        = some (Except.ok
            (Dynamic.vString ("#" ++ Dynamic.debug (Dynamic.vMap m)), [Dynamic.vMap m]))
    ∧ callFn basicLib KEYWORD_DEBUG [Dynamic.vMap m]
        = some (Except.ok
            (Dynamic.vString ("#" ++ Dynamic.debug (Dynamic.vMap m)), [Dynamic.vMap m])) := by
  have h1 : basicLib (FnKey.mk KEYWORD_PRINT [TypeTag.tMap]) = some PkgFn.formatMapFn := rfl
  have h2 : basicLib (FnKey.mk FUNC_TO_STRING [TypeTag.tMap]) = some PkgFn.formatMapFn := rfl
  have h3 : basicLib (FnKey.mk KEYWORD_DEBUG [TypeTag.tMap]) = some PkgFn.formatMapFn := rfl
  refine ⟨?_, ?_, ?_⟩
  · simp only [callFn, List.map_cons, List.map_nil, Dynamic.tagOf]
    rw [h1]
    simp [PkgFn.invoke]
  · simp only [callFn, List.map_cons, List.map_nil, Dynamic.tagOf]
    rw [h2]
    simp [PkgFn.invoke]
  · simp only [callFn, List.map_cons, List.map_nil, Dynamic.tagOf]
    rw [h3]
    simp [PkgFn.invoke]

/-- C9: for every array value, the print and to-string entries produce
exactly the output of the debug entry, and that output is the array debug
representation. -/
theorem array_print_to_string_eq_debug (a : List Dynamic) :
    callFn basicLib KEYWORD_PRINT [Dynamic.vArray a]
        = callFn basicLib KEYWORD_DEBUG [Dynamic.vArray a]
    ∧ callFn basicLib FUNC_TO_STRING [Dynamic.vArray a]
        = callFn basicLib KEYWORD_DEBUG [Dynamic.vArray a]
    ∧ callFn basicLib KEYWORD_DEBUG [Dynamic.vArray a]
        = some (Except.ok
            (Dynamic.vString (Dynamic.debug (Dynamic.vArray a)), [Dynamic.vArray a])) := by
  have h1 : basicLib (FnKey.mk KEYWORD_PRINT [TypeTag.tArray])
      = some (PkgFn.toDebugFn TypeTag.tArray) := rfl
  have h2 : basicLib (FnKey.mk FUNC_TO_STRING [TypeTag.tArray])
      = some (PkgFn.toDebugFn TypeTag.tArray) := rfl
  have h3 : basicLib (FnKey.mk KEYWORD_DEBUG [TypeTag.tArray])
      = some (PkgFn.toDebugFn TypeTag.tArray) := rfl
  refine ⟨?_, ?_, ?_⟩
  · simp only [callFn, List.map_cons, List.map_nil, Dynamic.tagOf]
    rw [h1, h3]
  · simp only [callFn, List.map_cons, List.map_nil, Dynamic.tagOf]
    rw [h2, h3]
  · simp only [callFn, List.map_cons, List.map_nil, Dynamic.tagOf]
    rw [h3]
    simp [PkgFn.invoke, Dynamic.tagOf]

/-- C10: every function the `BasicStringPackage` registers, when invoked on
arguments whose runtime type identities match its registered signature,
returns Ok: no execution path of any registered closure or helper produces
an error, so the error branch of the declared fallible return type is
unreachable at invocation time. -/
theorem registered_fns_never_error (k : FnKey) (f : PkgFn)
    (hmem : (k, f) ∈ basicStringRegs) (args : List Dynamic)
    (hsig : args.map Dynamic.tagOf = k.argTypes) :
    ∃ r rest, f.invoke args = Except.ok (r, rest) := by
  have hkey : ∀ p ∈ basicStringRegs, p.1.argTypes = p.2.sig := by decide
  exact invoke_ok_of_sig f args (by rw [hsig, hkey (k, f) hmem])

/-- Witness for C10: the append-character entry on concrete arguments. -/
theorem registered_fns_never_error_witness :
    ((FnKey.mk "append" [TypeTag.tString, TypeTag.tChar], PkgFn.appendStrChar)
        ∈ basicStringRegs)
    ∧ ∃ r rest,
        PkgFn.invoke PkgFn.appendStrChar [Dynamic.vString "ab", Dynamic.vChar 'c']
          = Except.ok (r, rest) :=
  ⟨by decide,
    registered_fns_never_error (FnKey.mk "append" [TypeTag.tString, TypeTag.tChar])
      PkgFn.appendStrChar (by decide) [Dynamic.vString "ab", Dynamic.vChar 'c'] rfl⟩

end Rhai
